import Mathlib

/-!
Verification of the portfolio rebalancing core (`src/utils/portfolio_utils.py`).

The pandas DataFrame is embedded as a structure of parallel column lists.
A float cell that may be NaN (a missing price, or a value derived from one)
is `Option ℚ` (`none` = NaN); arithmetic on such cells propagates `none`,
comparisons with `none` are `false`, and column sums skip `none`, matching
IEEE-754 NaN semantics and pandas `Series.sum` (skipna=True).
Python's `round` builtin and pandas `Series.round` use round-half-to-even,
embedded as `roundHalfEven` on ℚ.
-/

set_option maxHeartbeats 1000000

/-- A nullable numeric cell: `none` models a float NaN. -/
abbrev NQ := Option ℚ

/-- Cell multiplication: NaN propagates. -/
def nmul (a b : NQ) : NQ :=
  match a, b with
  | some x, some y => some (x * y)
  | _, _ => none

/-- Cell subtraction: NaN propagates. -/
def nsub (a b : NQ) : NQ :=
  match a, b with
  | some x, some y => some (x - y)
  | _, _ => none

/-- Cell division: NaN propagates. Division by zero is never exercised by the
code (every division sits behind a strict positivity guard), so it is mapped
to `none`. -/
def ndiv (a b : NQ) : NQ :=
  match a, b with
  | some x, some y => if y = 0 then none else some (x / y)
  | _, _ => none

/-- `x > c` on a cell: false when the cell is NaN, as for floats. -/
def ngt (a : NQ) (c : ℚ) : Bool :=
  match a with
  | some x => c < x
  | none => false

/-- `x < c` on a cell: false when the cell is NaN, as for floats. -/
def nlt (a : NQ) (c : ℚ) : Bool :=
  match a with
  | some x => x < c
  | none => false

/-- Column sum with pandas' default skipna policy: NaN cells contribute 0,
the sum of an empty or all-NaN column is 0. -/
def nsum (l : List NQ) : ℚ :=
  (l.map (fun x => x.getD 0)).sum

/-- Round a rational to the nearest integer, ties to the even neighbour:
the rounding convention of Python's `round` builtin and of numpy/pandas. -/
def roundHalfEven (q : ℚ) : ℤ :=
  let f := ⌊q⌋
  let r := q - (f : ℚ)
  if r < 1/2 then f
  else if 1/2 < r then f + 1
  else if f % 2 = 0 then f else f + 1

/-- Python `round(x, 2)` / pandas `.round(2)` on a non-NaN cell. -/
def round2 (q : ℚ) : ℚ :=
  (roundHalfEven (q * 100) : ℚ) / 100

/-- pandas `.round(2)` on a cell: NaN stays NaN. -/
def nround2 (a : NQ) : NQ :=
  a.map round2

/-- pandas column assignment `df[c] = ...`: an existing column is overwritten
in place, a new column name is appended at the end of the column order. -/
def addCol (cols : List String) (c : String) : List String :=
  if c ∈ cols then cols else cols ++ [c]

/-- Successive column assignments. -/
def addCols (cols : List String) (cs : List String) : List String :=
  cs.foldl addCol cols

/-- The holdings table: parallel column lists. Per the data model (§3 of the
spec), `ticker`, `sharesHeld` and `targetWeight` are always-present numeric or
string data; only `currentPrice` is nullable. Derived columns are fields that
the two calculators overwrite. `cols` tracks the pandas column order by name;
extra user columns appear in `cols` only (no claim depends on their data). -/
structure Frame where
  ticker : List String
  sharesHeld : List ℚ
  currentPrice : List NQ
  targetWeight : List ℚ
  currentValue : List NQ := []
  currentWeight : List NQ := []
  targetValue : List ℚ := []
  targetShares : List ℤ := []
  targetValueActual : List NQ := []
  difference : List NQ := []
  action : List String := []
  sharesDelta : List ℚ := []
  realWeight : List NQ := []
  cols : List String := ["Ticker", "Shares Held", "Target Weight (%)", "Current Price (per share)"]
  deriving Repr, DecidableEq

/-- `calculate_portfolio_metrics` (portfolio_utils.py lines 9-33): derives
`Current Value` and `Current Weight (%)` and returns
`(total_value, total_current_weight, total_target_weight)`. -/
def calculate_portfolio_metrics (df : Frame) : Frame × (ℚ × ℚ × ℚ) :=
  let cv := List.zipWith (fun s p => nmul (some s) p) df.sharesHeld df.currentPrice
  let total_value := nsum cv
  let cw :=
    if 0 < total_value then
      cv.map (fun v => nround2 (nmul (ndiv v (some total_value)) (some 100)))
    else
      cv.map (fun _ => some 0)
  let total_current_weight := round2 (nsum cw)
  let total_target_weight := round2 df.targetWeight.sum
  ({ df with
      currentValue := cv
      currentWeight := cw
      cols := addCols df.cols ["Current Value", "Current Weight (%)"] },
   (total_value, total_current_weight, total_target_weight))

/-- The enriched table produced by the Metrics Calculator. -/
def metricsFrame (df : Frame) : Frame :=
  (calculate_portfolio_metrics df).1

/-- One step of `optimize_shares` (lines 48-52): `int(round(target / price))`
when `price > 0`, else 0.  A NaN price fails the `price > 0` test. -/
def optShare (p : NQ) (t : ℚ) : ℤ :=
  match p with
  | some pv => if 0 < pv then roundHalfEven (t / pv) else 0
  | none => 0

/-- `optimize_shares` (lines 36-53). -/
def optimize_shares (prices : List NQ) (target_values : List ℚ) : List ℤ :=
  List.zipWith optShare prices target_values

/-- The canonical output column order of `reorder_rebalanced_columns`
(lines 127-141). -/
def column_order : List String :=
  ["Ticker", "Shares Held", "Current Price (per share)", "Current Weight (%)",
   "Current Value", "Target Weight (%)", "Target Value", "Target Shares",
   "Target Value (Actual)", "Difference", "Action", "Shares to Buy/Sell",
   "Real Weight (%)"]

/-- `reorder_rebalanced_columns` on the column order (lines 143-145):
canonical columns that are present first, remaining columns after. -/
def reorder_columns (cols : List String) : List String :=
  let available := column_order.filter (fun c => c ∈ cols)
  let remaining := cols.filter (fun c => ¬ c ∈ available)
  available ++ remaining

/-- `reorder_rebalanced_columns` (lines 117-147): `df[final_column_order]`
keeps every column's data and permutes the column order only. -/
def reorder_rebalanced_columns (df : Frame) : Frame :=
  { df with cols := reorder_columns df.cols }

/-- Names of the columns assigned by `calculate_rebalancing_metrics`, in
assignment order (lines 166-189). -/
def rebalanceAssignedCols : List String :=
  ["Target Value", "Target Shares", "Target Value (Actual)", "Difference",
   "Action", "Shares to Buy/Sell", "Real Weight (%)"]

/-- `calculate_rebalancing_metrics` (lines 150-193). -/
def calculate_rebalancing_metrics (df : Frame) (additional_capital : ℚ) : Frame :=
  let total_current_value := nsum df.currentValue
  let new_total_value := total_current_value + additional_capital
  let tv := df.targetWeight.map (fun w => w / 100 * new_total_value)
  let ts := optimize_shares df.currentPrice tv
  let tva := List.zipWith (fun (s : ℤ) p => nmul (some (s : ℚ)) p) ts df.currentPrice
  let diff := List.zipWith (fun a v => nsub a v) tva df.currentValue
  let act := diff.map (fun d => if ngt d 0 then "Buy" else if nlt d 0 then "Sell" else "Hold")
  let sd := List.zipWith (fun (t : ℤ) s => (t : ℚ) - s) ts df.sharesHeld
  let total_rebalanced_value := nsum tva
  let rw :=
    if 0 < total_rebalanced_value then
      tva.map (fun v => nround2 (nmul (ndiv v (some total_rebalanced_value)) (some 100)))
    else
      tva.map (fun _ => some 0)
  reorder_rebalanced_columns
    { df with
        targetValue := tv
        targetShares := ts
        targetValueActual := tva
        difference := diff
        action := act
        sharesDelta := sd
        realWeight := rw
        cols := addCols df.cols rebalanceAssignedCols }

/-- An arbitrary raw table as seen by the validator: each of the three
required columns may be absent (`none`) — `validate_portfolio_data` guards
every per-row check with `if col in df.columns`.  A present ticker cell may
be NaN (`none`); numeric cells are `NQ`. -/
structure RawFrame where
  ticker : Option (List (Option String))
  sharesHeld : Option (List NQ)
  targetWeight : Option (List NQ)
  deriving Repr, DecidableEq

/-- Whether a raw table has the named column (`col in df.columns`). -/
def hasColumn (df : RawFrame) (c : String) : Bool :=
  if c = "Ticker" then df.ticker.isSome
  else if c = "Shares Held" then df.sharesHeld.isSome
  else if c = "Target Weight (%)" then df.targetWeight.isSome
  else false

/-- The required columns (line 69), in order. -/
def required_columns : List String :=
  ["Ticker", "Shares Held", "Target Weight (%)"]

/-- The missing required columns, in required order (line 70). -/
def missingRequired (df : RawFrame) : List String :=
  required_columns.filter (fun c => ¬ hasColumn df c)

/-- The f-string `f"Missing required columns: \x7bmissing_columns\x7d"`
(line 72): Python renders the list with brackets, quotes and comma-space. -/
def missingColumnsMsg (cols : List String) : String :=
  "Missing required columns: [" ++
    String.intercalate ", " (cols.map (fun c => "\x27" ++ c ++ "\x27")) ++ "]"

/-- A guarded per-row check of `validate_portfolio_data`:
`if col in df.columns: if <bad rows exist>: errors.append(msg)` — an absent
column (`none`) is skipped, a present one contributes `msg` exactly when any
row is bad. -/
def colCheck {A : Type} (col : Option A) (bad : A → Bool) (msg : String) : List String :=
  match col with
  | some l => if bad l then [msg] else []
  | none => []

/-- `validate_portfolio_data` (lines 56-88): four independent checks, each
contributing at most one aggregate message; per-row checks run only when
their column is present.  The function only reads the table: the input is
left unmodified by construction. -/
def validate_portfolio_data (df : RawFrame) : List String :=
  (if missingRequired df ≠ [] then [missingColumnsMsg (missingRequired df)] else []) ++
  colCheck df.sharesHeld (fun sh => sh.any (fun x => nlt x 0))
    "Shares held cannot be negative" ++
  colCheck df.targetWeight (fun tw => tw.any (fun x => nlt x 0))
    "Target weights cannot be negative" ++
  colCheck df.ticker (fun ts => ts.any (fun t => t.isNone) || ts.any (fun t => t = some ""))
    "Ticker symbols cannot be empty"

/-! ### Helper lemmas -/

theorem mem_addCol_self (cols : List String) (c : String) : c ∈ addCol cols c := by
  unfold addCol
  split
  · assumption
  · simp

theorem mem_addCol_of_mem {cols : List String} {x : String} (c : String)
    (h : x ∈ cols) : x ∈ addCol cols c := by
  unfold addCol
  split
  · exact h
  · simp [h]

theorem addCol_of_mem {cols : List String} {c : String} (h : c ∈ cols) :
    addCol cols c = cols := by
  simp [addCol, h]

theorem mem_addCols_of_mem {cols : List String} {x : String} (cs : List String)
    (h : x ∈ cols) : x ∈ addCols cols cs := by
  induction cs generalizing cols with
  | nil => exact h
  | cons c cs ih => exact ih (mem_addCol_of_mem c h)

theorem mem_addCols_of_mem_arg {cols cs : List String} {x : String}
    (h : x ∈ cs) : x ∈ addCols cols cs := by
  induction cs generalizing cols with
  | nil => cases h
  | cons c cs ih =>
      rcases List.mem_cons.mp h with rfl | h
      · exact mem_addCols_of_mem cs (mem_addCol_self cols x)
      · exact ih h

theorem addCols_of_forall_mem {cols cs : List String}
    (h : ∀ c ∈ cs, c ∈ cols) : addCols cols cs = cols := by
  induction cs with
  | nil => rfl
  | cons c cs ih =>
      have hc : c ∈ cols := h c (by simp)
      show addCols (addCol cols c) cs = cols
      rw [addCol_of_mem hc]
      exact ih (fun x hx => h x (by simp [hx]))

theorem filter_addCol_not_mem {co : List String} (cols : List String) {c : String}
    (h : c ∈ co) :
    (addCol cols c).filter (fun x => ¬ x ∈ co) = cols.filter (fun x => ¬ x ∈ co) := by
  unfold addCol
  split
  · rfl
  · simp [List.filter_append, h]

theorem filter_addCols_not_mem {co : List String} (cols : List String) {cs : List String}
    (h : ∀ c ∈ cs, c ∈ co) :
    (addCols cols cs).filter (fun x => ¬ x ∈ co) = cols.filter (fun x => ¬ x ∈ co) := by
  induction cs generalizing cols with
  | nil => rfl
  | cons c cs ih =>
      show (addCols (addCol cols c) cs).filter _ = _
      rw [ih (addCol cols c) (fun x hx => h x (by simp [hx])),
          filter_addCol_not_mem cols (h c (by simp))]

theorem addCols_append (cols cs : List String) :
    ∃ r, addCols cols cs = cols ++ r := by
  induction cs generalizing cols with
  | nil => exact ⟨[], by simp [addCols]⟩
  | cons c cs ih =>
      rcases ih (addCol cols c) with ⟨r, hr⟩
      have hstep : addCols cols (c :: cs) = addCols (addCol cols c) cs := rfl
      rw [hstep, hr]
      unfold addCol
      split
      · exact ⟨r, rfl⟩
      · exact ⟨[c] ++ r, by simp⟩

theorem nsum_eraseIdx_of_none {l : List NQ} {i : ℕ} (h : l[i]? = some none) :
    nsum l = nsum (l.eraseIdx i) := by
  induction l generalizing i with
  | nil => simp at h
  | cons a t ih =>
      cases i with
      | zero =>
          simp only [List.getElem?_cons_zero, Option.some.injEq] at h
          subst h
          simp [nsum, List.eraseIdx]
      | succ n =>
          simp only [List.getElem?_cons_succ] at h
          simp only [nsum, List.eraseIdx, List.map_cons, List.sum_cons] at *
          rw [ih h]

theorem colCheck_sublist {A : Type} (o : Option A) (f : A → Bool) (msg : String) :
    (colCheck o f msg).Sublist [msg] := by
  unfold colCheck
  cases o with
  | none => simp
  | some l =>
      dsimp only
      split <;> simp

/-! ### Claim theorems -/

/-- The spec's end-to-end test fixture. -/
def tcsFixture : Frame :=
  { ticker := ["TCS", "INFY", "HDFC"]
    sharesHeld := [10, 20, 12]
    currentPrice := [some 100, some 50, some 80]
    targetWeight := [25, 50, 25] }

/-- C1: for the fixture holdings [(TCS,10,25%), (INFY,20,50%), (HDFC,12,25%)]
with prices {TCS:100, INFY:50, HDFC:80}, the Metrics Calculator followed by the
Rebalancing Engine with additional_capital = 0 yields current_value
[1000,1000,960], total 2960, current_weight_pct [33.78,33.78,32.43],
target_value [740,1480,740], target_shares [7,30,9] and actions
[Sell,Buy,Sell]; with additional_capital = 1000 the post-injection total is
3960, target_value is [990,1980,990] and target_shares is [10,40,12]. -/
theorem end_to_end_fixture_scenario :
    (calculate_portfolio_metrics tcsFixture).1.currentValue = [some 1000, some 1000, some 960] ∧
    (calculate_portfolio_metrics tcsFixture).2.1 = 2960 ∧
    (calculate_portfolio_metrics tcsFixture).1.currentWeight =
      [some (3378/100), some (3378/100), some (3243/100)] ∧
    (calculate_rebalancing_metrics (metricsFrame tcsFixture) 0).targetValue = [740, 1480, 740] ∧
    (calculate_rebalancing_metrics (metricsFrame tcsFixture) 0).targetShares = [7, 30, 9] ∧
    (calculate_rebalancing_metrics (metricsFrame tcsFixture) 0).action = ["Sell", "Buy", "Sell"] ∧
    nsum (metricsFrame tcsFixture).currentValue + 1000 = 3960 ∧
    (calculate_rebalancing_metrics (metricsFrame tcsFixture) 1000).targetValue = [990, 1980, 990] ∧
    (calculate_rebalancing_metrics (metricsFrame tcsFixture) 1000).targetShares = [10, 40, 12] := by
  norm_num [calculate_portfolio_metrics, calculate_rebalancing_metrics, metricsFrame,
    reorder_rebalanced_columns, tcsFixture, nsum, nmul, ndiv, nsub, nround2, round2,
    roundHalfEven, optimize_shares, optShare, ngt, nlt]

/-- A two-holding table whose first ticker has a NaN price and whose second is
priced: the missing-price scenario of C2. -/
def twoRowFrame : Frame :=
  { ticker := ["A", "B"]
    sharesHeld := [10, 10]
    currentPrice := [none, some 10]
    targetWeight := [50, 50] }

/-- C2 (counterexample): in the missing-price scenario the unpriced ticker's
target_value is NOT excluded or zeroed — here ticker A has no price, yet its
Target Value is 50 (= 50% of the priced total 100), a plain nonzero number. -/
theorem missing_price_target_value_not_zeroed :
    (metricsFrame twoRowFrame).currentPrice = [none, some 10] ∧
    (calculate_rebalancing_metrics (metricsFrame twoRowFrame) 0).targetValue = [50, 50] ∧
    ¬ ((50 : ℚ) = 0) := by
  norm_num [calculate_portfolio_metrics, calculate_rebalancing_metrics, metricsFrame,
    reorder_rebalanced_columns, twoRowFrame, nsum, nmul, ndiv, nsub, nround2, round2,
    roundHalfEven, optimize_shares, optShare, ngt, nlt]

/-- C2 (amended): for every holdings table in which one ticker has a missing
(NaN) current_price and all others are priced, the pipeline (totally defined,
hence raising no error) leaves that ticker's current_value and
target_value_actual missing and its target_shares 0; its target_value is the
ordinary target_weight/100 × post-injection total (in general nonzero) but is
never summed into a total, and both the total current value and the total
post-trade value are unchanged when the unpriced row is dropped, i.e. they
are sums over only the priced holdings. -/
theorem missing_price_soft_failure (df : Frame) (cap : ℚ) (i : ℕ)
    (hp : df.currentPrice[i]? = some none)
    (hs : i < df.sharesHeld.length)
    (hw : i < df.targetWeight.length)
    (_hpriced : (df.currentPrice.eraseIdx i).all Option.isSome = true) :
    (calculate_rebalancing_metrics (metricsFrame df) cap).currentValue[i]? = some none ∧
    (calculate_rebalancing_metrics (metricsFrame df) cap).targetShares[i]? = some 0 ∧
    (calculate_rebalancing_metrics (metricsFrame df) cap).targetValueActual[i]? = some none ∧
    nsum (calculate_rebalancing_metrics (metricsFrame df) cap).currentValue =
      nsum ((calculate_rebalancing_metrics (metricsFrame df) cap).currentValue.eraseIdx i) ∧
    nsum (calculate_rebalancing_metrics (metricsFrame df) cap).targetValueActual =
      nsum ((calculate_rebalancing_metrics (metricsFrame df) cap).targetValueActual.eraseIdx i) := by
  have hcv : (calculate_rebalancing_metrics (metricsFrame df) cap).currentValue[i]? = some none := by
    simp only [calculate_rebalancing_metrics, metricsFrame, calculate_portfolio_metrics,
      reorder_rebalanced_columns, List.getElem?_zipWith, hp, List.getElem?_eq_getElem hs]
    rfl
  have hts : (calculate_rebalancing_metrics (metricsFrame df) cap).targetShares[i]? = some 0 := by
    simp only [calculate_rebalancing_metrics, metricsFrame, calculate_portfolio_metrics,
      reorder_rebalanced_columns, optimize_shares, List.getElem?_zipWith, List.getElem?_map,
      hp, List.getElem?_eq_getElem hw]
    rfl
  have htva : (calculate_rebalancing_metrics (metricsFrame df) cap).targetValueActual[i]? = some none := by
    simp only [calculate_rebalancing_metrics, metricsFrame, calculate_portfolio_metrics,
      reorder_rebalanced_columns, optimize_shares, List.getElem?_zipWith, List.getElem?_map,
      hp, List.getElem?_eq_getElem hw]
    rfl
  exact ⟨hcv, hts, htva, nsum_eraseIdx_of_none hcv, nsum_eraseIdx_of_none htva⟩

/-- C2 witness: the amended theorem applied to the concrete two-row table. -/
theorem missing_price_soft_failure_witness :
    twoRowFrame.currentPrice[0]? = some none ∧
    (twoRowFrame.currentPrice.eraseIdx 0).all Option.isSome = true ∧
    (calculate_rebalancing_metrics (metricsFrame twoRowFrame) 0).targetShares[0]? = some 0 ∧
    nsum (calculate_rebalancing_metrics (metricsFrame twoRowFrame) 0).currentValue =
      nsum ((calculate_rebalancing_metrics (metricsFrame twoRowFrame) 0).currentValue.eraseIdx 0) := by
  refine ⟨rfl, rfl, ?_, ?_⟩
  · exact (missing_price_soft_failure twoRowFrame 0 0 rfl (by norm_num [twoRowFrame])
      (by norm_num [twoRowFrame]) rfl).2.1
  · exact (missing_price_soft_failure twoRowFrame 0 0 rfl (by norm_num [twoRowFrame])
      (by norm_num [twoRowFrame]) rfl).2.2.2.1

/-- C3: for every holding with current_price > 0, optimize_shares returns
round(target_value / current_price) under the runtime's half-rounding
convention, which is round-half-to-even (Python's `round` builtin); the
pinned exact case price = 50, target_value = 125 (quotient exactly 2.5)
yields 2, the value dictated by round-half-to-even. -/
theorem optimize_shares_half_even_rounding (prices : List NQ) (target_values : List ℚ)
    (i : ℕ) (p t : ℚ)
    (hp : prices[i]? = some (some p)) (hpos : 0 < p)
    (ht : target_values[i]? = some t) :
    (optimize_shares prices target_values)[i]? = some (roundHalfEven (t / p)) ∧
    optimize_shares [some 50] [125] = [2] ∧
    roundHalfEven (125 / 50) = 2 := by
  refine ⟨?_, ?_, ?_⟩
  · simp [optimize_shares, List.getElem?_zipWith, hp, ht, optShare, hpos]
  · norm_num [optimize_shares, optShare, roundHalfEven]
  · norm_num [roundHalfEven]

/-- C3 witness: the rounding theorem applied at the pinned case itself. -/
theorem optimize_shares_half_even_rounding_witness :
    ([some (50 : ℚ)] : List NQ)[0]? = some (some 50) ∧ (0 : ℚ) < 50 ∧
    ([125] : List ℚ)[0]? = some 125 ∧
    (optimize_shares [some 50] [125])[0]? = some (roundHalfEven (125 / 50)) := by
  refine ⟨by norm_num, by norm_num, by norm_num, ?_⟩
  exact (optimize_shares_half_even_rounding [some 50] [125] 0 50 125
    (by norm_num) (by norm_num) (by norm_num)).1

/-- C4: for every holding whose current_price is missing (NaN) or ≤ 0,
optimize_shares assigns target_shares = 0, regardless of the target value. -/
theorem optimize_shares_nonpositive_price_zero (prices : List NQ) (target_values : List ℚ)
    (i : ℕ) (po : NQ)
    (hp : prices[i]? = some po)
    (hnp : po = none ∨ ∃ p, po = some p ∧ p ≤ 0)
    (ht : i < target_values.length) :
    (optimize_shares prices target_values)[i]? = some 0 := by
  rcases hnp with rfl | ⟨p, rfl, hple⟩
  · simp [optimize_shares, List.getElem?_zipWith, hp, List.getElem?_eq_getElem ht, optShare]
  · simp [optimize_shares, List.getElem?_zipWith, hp, List.getElem?_eq_getElem ht, optShare,
      not_lt.mpr hple]

/-- C4 witness: a NaN price, a zero price and a negative price all yield 0
shares even with a large positive target value. -/
theorem optimize_shares_nonpositive_price_zero_witness :
    (([none, some 0, some (-3)] : List NQ)[0]? = some none) ∧
    (optimize_shares [none, some 0, some (-3)] [700, 700, 700])[0]? = some 0 ∧
    (optimize_shares [none, some 0, some (-3)] [700, 700, 700])[1]? = some 0 ∧
    (optimize_shares [none, some 0, some (-3)] [700, 700, 700])[2]? = some 0 := by
  refine ⟨by norm_num, ?_, ?_, ?_⟩
  · exact optimize_shares_nonpositive_price_zero [none, some 0, some (-3)] [700, 700, 700]
      0 none (by norm_num) (Or.inl rfl) (by norm_num)
  · exact optimize_shares_nonpositive_price_zero [none, some 0, some (-3)] [700, 700, 700]
      1 (some 0) (by norm_num) (Or.inr ⟨0, rfl, le_refl 0⟩) (by norm_num)
  · exact optimize_shares_nonpositive_price_zero [none, some 0, some (-3)] [700, 700, 700]
      2 (some (-3)) (by norm_num) (Or.inr ⟨-3, rfl, by norm_num⟩) (by norm_num)

/-- C5: when the total current value is not greater than 0, the Metrics
Calculator sets every row's current_weight_pct to exactly `some 0` (never NaN,
and the guard avoids any division); when it is greater than 0, each weight is
value / total × 100 rounded to 2 decimals.  The Rebalancing Engine treats
real_weight_pct the same way against the total post-trade value. -/
theorem weight_zero_division_guard (df : Frame) (cap : ℚ) :
    (nsum (metricsFrame df).currentValue ≤ 0 →
        ∀ w ∈ (metricsFrame df).currentWeight, w = some 0) ∧
    (0 < nsum (metricsFrame df).currentValue →
        ∀ i : ℕ, (metricsFrame df).currentWeight[i]? =
          ((metricsFrame df).currentValue[i]?).map
            (fun v => nround2 (nmul (ndiv v (some (nsum (metricsFrame df).currentValue))) (some 100)))) ∧
    (nsum (calculate_rebalancing_metrics df cap).targetValueActual ≤ 0 →
        ∀ w ∈ (calculate_rebalancing_metrics df cap).realWeight, w = some 0) ∧
    (0 < nsum (calculate_rebalancing_metrics df cap).targetValueActual →
        ∀ i : ℕ, (calculate_rebalancing_metrics df cap).realWeight[i]? =
          ((calculate_rebalancing_metrics df cap).targetValueActual[i]?).map
            (fun v => nround2 (nmul (ndiv v
              (some (nsum (calculate_rebalancing_metrics df cap).targetValueActual))) (some 100)))) := by
  refine ⟨?_, ?_, ?_, ?_⟩ <;>
    simp only [metricsFrame, calculate_portfolio_metrics, calculate_rebalancing_metrics,
      reorder_rebalanced_columns]
  · intro h w hw
    rw [if_neg (not_lt.mpr h)] at hw
    obtain ⟨a, -, ha⟩ := List.mem_map.mp hw
    exact ha.symm
  · intro h i
    rw [if_pos h, List.getElem?_map]
  · intro h w hw
    rw [if_neg (not_lt.mpr h)] at hw
    obtain ⟨a, -, ha⟩ := List.mem_map.mp hw
    exact ha.symm
  · intro h i
    rw [if_pos h, List.getElem?_map]

/-- A one-holding table whose only price is 0: total value 0. -/
def zeroPriceFrame : Frame :=
  { ticker := ["A"]
    sharesHeld := [10]
    currentPrice := [some 0]
    targetWeight := [100] }

/-- A one-holding table with a positive price: total value 10. -/
def posPriceFrame : Frame :=
  { ticker := ["A"]
    sharesHeld := [2]
    currentPrice := [some 5]
    targetWeight := [100] }

/-- C5 witness: the guard theorem applied to a zero-price table (all weights
exactly 0) and to a positively-priced table (weights from the formula). -/
theorem weight_zero_division_guard_witness :
    (∀ w ∈ (metricsFrame zeroPriceFrame).currentWeight, w = some 0) ∧
    ((metricsFrame posPriceFrame).currentWeight[0]? =
      ((metricsFrame posPriceFrame).currentValue[0]?).map
        (fun v => nround2 (nmul (ndiv v (some (nsum (metricsFrame posPriceFrame).currentValue))) (some 100)))) ∧
    (∀ w ∈ (calculate_rebalancing_metrics zeroPriceFrame 0).realWeight, w = some 0) ∧
    ((calculate_rebalancing_metrics (metricsFrame posPriceFrame) 0).realWeight[0]? =
      ((calculate_rebalancing_metrics (metricsFrame posPriceFrame) 0).targetValueActual[0]?).map
        (fun v => nround2 (nmul (ndiv v
          (some (nsum (calculate_rebalancing_metrics (metricsFrame posPriceFrame) 0).targetValueActual))) (some 100)))) := by
  refine ⟨?_, ?_, ?_, ?_⟩
  · exact (weight_zero_division_guard zeroPriceFrame 0).1
      (by norm_num [metricsFrame, calculate_portfolio_metrics, zeroPriceFrame, nsum, nmul])
  · exact (weight_zero_division_guard posPriceFrame 0).2.1
      (by norm_num [metricsFrame, calculate_portfolio_metrics, posPriceFrame, nsum, nmul]) 0
  · exact (weight_zero_division_guard zeroPriceFrame 0).2.2.1
      (by norm_num [calculate_rebalancing_metrics, reorder_rebalanced_columns, zeroPriceFrame,
        nsum, nmul, ndiv, optimize_shares, optShare])
  · exact (weight_zero_division_guard (metricsFrame posPriceFrame) 0).2.2.2
      (by norm_num [metricsFrame, calculate_portfolio_metrics, calculate_rebalancing_metrics,
        reorder_rebalanced_columns, posPriceFrame, nsum, nmul, ndiv, nround2, round2,
        roundHalfEven, optimize_shares, optShare]) 0

/-- C6: a table with all three required columns, exactly one row with
shares_held = -5, and otherwise valid data (no other negative shares, no
negative target weights, no empty or missing tickers) makes validate return
exactly the one aggregate message ["Shares held cannot be negative"]; the
embedded validator is a pure function, so the input table is left unmodified.
More generally, for every raw table the error list is a sublist of the four
canonical messages in fixed order, so each independent check contributes at
most one message. -/
theorem validate_negative_shares_scenario (ts : List (Option String)) (sh ws : List NQ)
    (hcount : sh.count (some (-5 : ℚ)) = 1)
    (_hother : ∀ x ∈ sh, x ≠ some (-5 : ℚ) → nlt x 0 = false)
    (hwnn : ∀ x ∈ ws, nlt x 0 = false)
    (htk : ∀ t ∈ ts, t.isSome ∧ ¬ t = some "") :
    validate_portfolio_data { ticker := some ts, sharesHeld := some sh, targetWeight := some ws } =
      ["Shares held cannot be negative"] ∧
    ∀ g : RawFrame, (validate_portfolio_data g).Sublist
      [missingColumnsMsg (missingRequired g), "Shares held cannot be negative",
       "Target weights cannot be negative", "Ticker symbols cannot be empty"] := by
  constructor
  · have hmem : (some (-5 : ℚ) : NQ) ∈ sh := List.count_pos_iff.mp (by omega)
    have hany : sh.any (fun x => nlt x 0) = true :=
      List.any_eq_true.mpr ⟨some (-5 : ℚ), hmem, by norm_num [nlt]⟩
    have hws : ws.any (fun x => nlt x 0) = false :=
      List.any_eq_false.mpr (fun x hx => by simp [hwnn x hx])
    have ht1 : ts.any (fun t => t.isNone) = false :=
      List.any_eq_false.mpr (fun t htm => by
        have h := (htk t htm).1
        cases t with
        | none => simp at h
        | some a => simp)
    have ht2 : ts.any (fun t => t = some "") = false :=
      List.any_eq_false.mpr (fun t htm => by simp [(htk t htm).2])
    simp [validate_portfolio_data, colCheck, missingRequired, hasColumn, required_columns,
      hany, hws, ht1, ht2]
  · intro g
    unfold validate_portfolio_data
    have h1 : ∀ m : String, (if missingRequired g ≠ [] then [m] else []).Sublist [m] := by
      intro m; split <;> simp
    exact (((h1 (missingColumnsMsg (missingRequired g))).append
      (colCheck_sublist _ _ _)).append
      (colCheck_sublist _ _ _)).append
      (colCheck_sublist _ _ _)

/-- C6 witness: the validation theorem applied to a concrete two-row table
with one -5 share count. -/
theorem validate_negative_shares_scenario_witness :
    validate_portfolio_data
      { ticker := some [some "X", some "Y"]
        sharesHeld := some [some (-5), some 3]
        targetWeight := some [some 50, some 50] } = ["Shares held cannot be negative"] :=
  (validate_negative_shares_scenario [some "X", some "Y"] [some (-5), some 3]
    [some 50, some 50] (by decide) (by decide) (by decide) (by decide)).1

/-- C7: the Metrics Calculator is idempotent — running it on its own output
(unchanged shares, prices and target weights) returns the same enriched table
and the same totals as running it once. -/
theorem metrics_calculator_idempotent (df : Frame) :
    calculate_portfolio_metrics (metricsFrame df) = calculate_portfolio_metrics df := by
  have hcols : addCols (addCols df.cols ["Current Value", "Current Weight (%)"])
      ["Current Value", "Current Weight (%)"] =
      addCols df.cols ["Current Value", "Current Weight (%)"] :=
    addCols_of_forall_mem (fun c hc => mem_addCols_of_mem_arg hc)
  simp [calculate_portfolio_metrics, metricsFrame, hcols]

/-- C8: for every input table, neither component adds or removes rows — the
ticker column (row set and order) is returned unchanged by both the Metrics
Calculator and the Rebalancing Engine — and the Metrics Calculator only
appends new column names after the existing ones; whenever the six input
columns the engine needs are present (as on every metrics-enriched table),
the engine's output column order is exactly the thirteen canonical columns
first, in their fixed order, followed by the extra input columns in their
original relative order (a sublist of the input order). -/
theorem row_and_column_preservation (df : Frame) (cap : ℚ) :
    (metricsFrame df).ticker = df.ticker ∧
    (∃ r, (metricsFrame df).cols = df.cols ++ r) ∧
    (calculate_rebalancing_metrics df cap).ticker = df.ticker ∧
    (("Ticker" ∈ df.cols ∧ "Shares Held" ∈ df.cols ∧
      "Current Price (per share)" ∈ df.cols ∧ "Current Weight (%)" ∈ df.cols ∧
      "Current Value" ∈ df.cols ∧ "Target Weight (%)" ∈ df.cols) →
      (calculate_rebalancing_metrics df cap).cols =
        column_order ++ df.cols.filter (fun c => ¬ c ∈ column_order)) ∧
    (df.cols.filter (fun c => ¬ c ∈ column_order)).Sublist df.cols := by
  refine ⟨rfl, addCols_append df.cols _, rfl, ?_, List.filter_sublist df.cols⟩
  intro ⟨h1, h2, h3, h4, h5, h6⟩
  simp only [calculate_rebalancing_metrics, reorder_rebalanced_columns, reorder_columns]
  have hsub : ∀ c ∈ rebalanceAssignedCols, c ∈ column_order := by
    intro c hc
    simp only [rebalanceAssignedCols, List.mem_cons, List.not_mem_nil, or_false] at hc
    rcases hc with rfl | rfl | rfl | rfl | rfl | rfl | rfl <;> simp [column_order]
  have havail : List.filter (fun c => decide (c ∈ addCols df.cols rebalanceAssignedCols))
      column_order = column_order := by
    rw [List.filter_eq_self]
    intro a ha
    simp only [decide_eq_true_eq]
    simp only [column_order, List.mem_cons, List.not_mem_nil, or_false] at ha
    rcases ha with rfl | rfl | rfl | rfl | rfl | rfl | rfl | rfl | rfl | rfl | rfl | rfl | rfl <;>
      first
        | exact mem_addCols_of_mem _ (by assumption)
        | exact mem_addCols_of_mem_arg (by simp [rebalanceAssignedCols])
  rw [havail, filter_addCols_not_mem df.cols hsub]

/-- A minimal base table for the column-order witness. -/
def oneRowFrame : Frame :=
  { ticker := ["A"]
    sharesHeld := [1]
    currentPrice := [some 1]
    targetWeight := [100] }

/-- C8 witness: row preservation under enrichment of the raw one-row table,
and the canonical column order on its metrics-enriched result, with the
column-presence hypothesis discharged concretely. -/
theorem row_and_column_preservation_witness :
    (metricsFrame oneRowFrame).ticker = oneRowFrame.ticker ∧
    (metricsFrame (metricsFrame oneRowFrame)).ticker = (metricsFrame oneRowFrame).ticker ∧
    (calculate_rebalancing_metrics (metricsFrame oneRowFrame) 0).cols =
      column_order ++ (metricsFrame oneRowFrame).cols.filter (fun c => ¬ c ∈ column_order) := by
  refine ⟨?_, ?_, ?_⟩
  · exact (row_and_column_preservation oneRowFrame 0).1
  · exact (row_and_column_preservation (metricsFrame oneRowFrame) 0).1
  · exact (row_and_column_preservation (metricsFrame oneRowFrame) 0).2.2.2.1 (by decide)

/-- C9: a holding whose current_price is missing (NaN) is always classified
as Action = "Hold" by the Rebalancing Engine: its target_value_actual is NaN
(0 shares × NaN price), so the difference is NaN, which satisfies neither the
gt-0 Buy branch nor the lt-0 Sell branch. -/
theorem missing_price_action_hold (df : Frame) (cap : ℚ) (i : ℕ) (w : ℚ)
    (hp : df.currentPrice[i]? = some none)
    (hw : df.targetWeight[i]? = some w)
    (hv : i < df.currentValue.length) :
    (calculate_rebalancing_metrics df cap).action[i]? = some "Hold" := by
  simp only [calculate_rebalancing_metrics, reorder_rebalanced_columns, optimize_shares,
    List.getElem?_map, List.getElem?_zipWith, hp, hw, List.getElem?_eq_getElem hv]
  rfl

/-- An enriched one-row table whose only price is NaN. -/
def naNPriceFrame : Frame :=
  { ticker := ["A"]
    sharesHeld := [1]
    currentPrice := [none]
    targetWeight := [100]
    currentValue := [some 5] }

/-- C9 witness: the Hold classification on a concrete NaN-priced row. -/
theorem missing_price_action_hold_witness :
    naNPriceFrame.currentPrice[0]? = some none ∧
    (calculate_rebalancing_metrics naNPriceFrame 0).action[0]? = some "Hold" :=
  ⟨rfl, missing_price_action_hold naNPriceFrame 0 0 100 rfl rfl (by norm_num [naNPriceFrame])⟩

/-- C10: validate is total over arbitrary raw tables — each per-row check is
guarded by column presence, so when a required column is absent its check is
skipped (its message can never appear) rather than attempted, and the single
missing-columns error, listing exactly the missing set, heads the returned
list. -/
theorem validate_missing_columns_skips_checks (df : RawFrame) :
    (missingRequired df ≠ [] →
      (validate_portfolio_data df).head? = some (missingColumnsMsg (missingRequired df))) ∧
    (df.sharesHeld = none → ¬ "Shares held cannot be negative" ∈ validate_portfolio_data df) ∧
    (df.targetWeight = none → ¬ "Target weights cannot be negative" ∈ validate_portfolio_data df) ∧
    (df.ticker = none → ¬ "Ticker symbols cannot be empty" ∈ validate_portfolio_data df) := by
  refine ⟨?_, ?_, ?_, ?_⟩
  · intro h
    unfold validate_portfolio_data
    rw [if_pos h]
    simp
  · intro hs
    rcases df with ⟨t, s, w⟩
    cases hs
    cases t <;> cases w <;>
      simp only [validate_portfolio_data, colCheck, missingRequired, hasColumn,
        required_columns, missingColumnsMsg] <;>
      split_ifs <;> simp_all <;> decide
  · intro hw
    rcases df with ⟨t, s, w⟩
    cases hw
    cases t <;> cases s <;>
      simp only [validate_portfolio_data, colCheck, missingRequired, hasColumn,
        required_columns, missingColumnsMsg] <;>
      split_ifs <;> simp_all <;> decide
  · intro ht
    rcases df with ⟨t, s, w⟩
    cases ht
    cases s <;> cases w <;>
      simp only [validate_portfolio_data, colCheck, missingRequired, hasColumn,
        required_columns, missingColumnsMsg] <;>
      split_ifs <;> simp_all <;> decide

/-- A raw table whose Shares Held column is absent. -/
def noSharesFrame : RawFrame :=
  { ticker := some [some "X"]
    sharesHeld := none
    targetWeight := some [some 50] }

/-- C10 witness: with the Shares Held column absent, the missing-columns
message heads the list and the negative-shares check is skipped. -/
theorem validate_missing_columns_skips_checks_witness :
    (validate_portfolio_data noSharesFrame).head? =
      some (missingColumnsMsg (missingRequired noSharesFrame)) ∧
    ¬ "Shares held cannot be negative" ∈ validate_portfolio_data noSharesFrame :=
  ⟨(validate_missing_columns_skips_checks noSharesFrame).1 (by decide),
   (validate_missing_columns_skips_checks noSharesFrame).2.1 rfl⟩
